import Mathlib

/-!
Verification of the ResearchLens local persistence and analysis-caching layer
(`src/electron/main.cjs`, current `database.cjs` version, plus the IPC handlers
in the main-process file).  The SQLite tables are embedded as Lean lists kept
in rowid (insertion) order; SQL statements are translated operation by
operation.  Timestamps (`new Date().toISOString()` strings, compared by SQLite
with binary collation, which on ISO-8601 strings coincides with chronological
order) are modelled as `Nat` with its usual order.  Token counts are `Nat`
(the JS values are non-negative integers).
-/

namespace ResearchLens

/-- Token usage reported by one AI call (`results._usage`). -/
structure Usage where
  promptTokens : Nat
  responseTokens : Nat
deriving Repr, DecidableEq

/-- One row of the `analysis` table:
`(fileId, columnId, content, model, timestamp, promptTokens, responseTokens)`
with `PRIMARY KEY (fileId, columnId, model)`.  `fileId` is the subject id
(a document id or a dataset-row id; the FK to `files` was removed by the
migration). -/
structure AnalysisRow where
  fileId : String
  columnId : String
  content : String
  model : String
  timestamp : Nat
  promptTokens : Nat
  responseTokens : Nat
deriving Repr, DecidableEq

/-- Does row `r` carry the primary key `(f, c, m)`? -/
def keyPred (f c m : String) (r : AnalysisRow) : Bool :=
  r.fileId == f && r.columnId == c && r.model == m

/-- The rows of a table that carry key `(f, c, m)` (table = list in rowid order). -/
def keyRows (t : List AnalysisRow) (f c m : String) : List AnalysisRow :=
  t.filter (keyPred f c m)

/-- The prepared upsert of `saveAnalysis`:
`INSERT INTO analysis ... ON CONFLICT(fileId, columnId, model) DO UPDATE SET
content = excluded.content, timestamp = excluded.timestamp,
promptTokens = analysis.promptTokens + excluded.promptTokens,
responseTokens = analysis.responseTokens + excluded.responseTokens`.
On conflict the existing row keeps its rowid (its position in the list);
otherwise the new row is appended at the end. -/
def upsertAnalysis (t : List AnalysisRow) (new : AnalysisRow) : List AnalysisRow :=
  if t.any (keyPred new.fileId new.columnId new.model) then
    t.map (fun r =>
      if keyPred new.fileId new.columnId new.model r then
        { r with content := new.content, timestamp := new.timestamp,
                 promptTokens := r.promptTokens + new.promptTokens,
                 responseTokens := r.responseTokens + new.responseTokens }
      else r)
  else t ++ [new]

/-- The field payload of a `saveAnalysis` result bundle.  When `_responses`
is present it is a map columnId → (modelId → content); otherwise the fallback
path iterates every non-reserved top-level key (the reserved keys `_models`,
`_responses`, `metadata`, `_usage` are skipped by the source loop, so here
`fields` holds exactly the non-reserved entries). -/
inductive Payload where
  | responses (rs : List (String × List (String × String)))
  | fields (fs : List (String × String))
deriving Repr, DecidableEq

/-- A `saveAnalysis` result bundle.  `content` values are the serialized
strings the source writes (objects are `JSON.stringify`ed before the insert).
`metadata = none` models a falsy `results.metadata`, `usage = none` a missing
`results._usage`. -/
structure SaveResults where
  metadata : Option String
  models : List (String × String)
  payload : Payload
  usage : Option Usage
deriving Repr, DecidableEq

/-- `map[k] || d` on a JS object modelled as an association list. -/
def lookupD (m : List (String × String)) (k d : String) : String :=
  match m.find? (fun p => p.1 == k) with
  | some p => p.2
  | none => d

/-- The `(columnId, modelId, content)` triples written by the response loops of
`saveAnalysis`, in processing order. -/
def entriesOf (results : SaveResults) : List (String × String × String) :=
  match results.payload with
  | .responses rs => (rs.map (fun p => p.2.map (fun q => (p.1, q.1, q.2)))).flatten
  | .fields fs => fs.map (fun p => (p.1, lookupD results.models p.1 "default", p.2))

/-- The body of the response loop of `saveAnalysis`: for each entry,
`pTokens = !tokensCharged ? usage.promptTokens : 0` (same for `rTokens`),
then `if (!tokensCharged && (usage.promptTokens > 0)) tokensCharged = true`,
then the upsert runs. -/
def runEntries (fileId : String) (ts : Nat) (usage : Usage) :
    List (String × String × String) → Bool → List AnalysisRow → List AnalysisRow
  | [], _, t => t
  | (colId, modelId, content) :: rest, charged, t =>
      let p := if charged then 0 else usage.promptTokens
      let r := if charged then 0 else usage.responseTokens
      let charged2 := charged || decide (usage.promptTokens > 0)
      runEntries fileId ts usage rest charged2
        (upsertAnalysis t
          { fileId := fileId, columnId := colId, content := content, model := modelId,
            timestamp := ts, promptTokens := p, responseTokens := r })

/-- `saveAnalysis(fileId, results)` from `src/electron/main.cjs` (lines
628-710): if `results.metadata` is present it is written first under
`columnId = 'metadata'` with model `models['metadata'] || 'system'`, charged
the full usage, and `tokensCharged` is set; then the response entries are
written through `runEntries`.  The call-time clock
(`new Date().toISOString()`) is the explicit parameter `ts`. -/
def saveAnalysis (fileId : String) (results : SaveResults) (ts : Nat)
    (t : List AnalysisRow) : List AnalysisRow :=
  let usage := results.usage.getD ⟨0, 0⟩
  match results.metadata with
  | some md =>
      runEntries fileId ts usage (entriesOf results) true
        (upsertAnalysis t
          { fileId := fileId, columnId := "metadata", content := md,
            model := lookupD results.models "metadata" "system", timestamp := ts,
            promptTokens := usage.promptTokens, responseTokens := usage.responseTokens })
  | none =>
      runEntries fileId ts usage (entriesOf results) false t

/-- One write in a sequence of single-field `saveAnalysis` calls
targeting a fixed `(subject, field, model)` triple. -/
structure WriteReq where
  content : String
  usage : Usage
  ts : Nat
deriving Repr, DecidableEq

/-- A sequence of `saveAnalysis` calls, each writing exactly the triple
`(f, c, m)` (a `_responses` bundle with the single entry `c ↦ m ↦ content`
and no metadata), run left to right against the table. -/
def writeSeq (f c m : String) : List WriteReq → List AnalysisRow → List AnalysisRow
  | [], t => t
  | w :: ws, t =>
      writeSeq f c m ws
        (saveAnalysis f
          { metadata := none, models := [], payload := .responses [(c, [(m, w.content)])],
            usage := some w.usage } w.ts t)

/-- Last element of `d :: l`. -/
def lastD (d : WriteReq) : List WriteReq → WriteReq
  | [] => d
  | w :: ws => lastD w ws

/-- Sum of the `promptTokens` supplied by a list of writes. -/
def sumPrompt (ws : List WriteReq) : Nat :=
  ws.foldr (fun w a => w.usage.promptTokens + a) 0

/-- Sum of the `responseTokens` supplied by a list of writes. -/
def sumResp (ws : List WriteReq) : Nat :=
  ws.foldr (fun w a => w.usage.responseTokens + a) 0

/-- Sum of the `responseTokens` column over a whole analysis table
(`SELECT SUM(responseTokens) FROM analysis`). -/
def tableRespTokens (t : List AnalysisRow) : Nat :=
  t.foldr (fun r a => r.responseTokens + a) 0

/-- Sum of the `promptTokens` column over a whole analysis table. -/
def tablePromptTokens (t : List AnalysisRow) : Nat :=
  t.foldr (fun r a => r.promptTokens + a) 0

/-! ## Merged-view reconstruction (`getAllFiles`, `getDatasetRows`)

Both readers fold the fetched analysis rows forward, each row overwriting
`analysis[columnId]` and `_models[columnId]`, so the exposed (content, model)
for a field comes from the *last* row of the iteration.  `getAllFiles`
fetches with `ORDER BY timestamp ASC` (the order of equal timestamps is not
guaranteed by SQLite; the theorems below use only the timestamp itself).
`getDatasetRows` fetches with no `ORDER BY`; SQLite serves that query
through the `(fileId, columnId, model)` primary-key index, so the rows
arrive ordered by that key triple — in particular, a subject's rows for one
field arrive in ascending model-id order, regardless of when they were
written. -/

/-- The last row of the list carrying `(fid, field)` — the row whose content
ends up exposed by the forward overwrite fold of the readers. -/
def lastFor (fid field : String) : List AnalysisRow → Option AnalysisRow
  | [] => none
  | r :: rest =>
      match lastFor fid field rest with
      | some r2 => some r2
      | none => if r.fileId == fid && r.columnId == field then some r else none

/-- The order `ORDER BY timestamp ASC` sorts by. -/
def tsLe (a b : AnalysisRow) : Prop :=
  a.timestamp ≤ b.timestamp

instance : DecidableRel tsLe :=
  fun a b => Nat.decLe a.timestamp b.timestamp

instance : IsTotal AnalysisRow tsLe :=
  ⟨fun a b => Nat.le_total a.timestamp b.timestamp⟩

instance : IsTrans AnalysisRow tsLe :=
  ⟨fun _ _ _ hab hbc => Nat.le_trans hab hbc⟩

/-- `ORDER BY timestamp ASC` as a sort of the fetched rows (SQLite fixes
only the timestamp order; ties are served in an unspecified order, so no
theorem below depends on the tie-breaking of this sort). -/
def sortByTimestamp (l : List AnalysisRow) : List AnalysisRow :=
  List.insertionSort tsLe l

/-- Lexicographic order on char lists by code point — the BINARY collation
SQLite compares TEXT key columns with. -/
def charsLe : List Char → List Char → Bool
  | [], _ => true
  | _ :: _, [] => false
  | c :: cs, d :: ds => if c = d then charsLe cs ds else decide (c < d)

/-- `charsLe` on the characters of two strings. -/
def strLe (a b : String) : Bool :=
  charsLe a.toList b.toList

/-- The `(fileId, columnId, model)` primary-key order of the `analysis`
table: lexicographic on the key triple, each component compared by the
BINARY collation. -/
def pkLeB (a b : AnalysisRow) : Bool :=
  if a.fileId = b.fileId then
    if a.columnId = b.columnId then strLe a.model b.model
    else strLe a.columnId b.columnId
  else strLe a.fileId b.fileId

/-- The primary-key-index order as a relation. -/
def pkLe (a b : AnalysisRow) : Prop :=
  pkLeB a b = true

instance : DecidableRel pkLe :=
  fun a b => inferInstanceAs (Decidable (pkLeB a b = true))

/-- The un-ordered `SELECT * FROM analysis WHERE fileId IN (...)` of
`getDatasetRows`: SQLite answers it through the `(fileId, columnId, model)`
primary-key index, so the rows are served in ascending key order. -/
def fetchByPk (l : List AnalysisRow) : List AnalysisRow :=
  List.insertionSort pkLe l

/-- `row.model || 'default'` from the `getAllFiles` fold. -/
def modelKeyOf (r : AnalysisRow) : String :=
  if r.model == "" then "default" else r.model

/-- The (content, model) pair `getAllFiles` exposes for a (non-`metadata`)
field of a file: the rows are fetched `ORDER BY timestamp ASC` and folded
forward, so the last row of the timestamp-sorted list wins; the model is
`row.model || 'default'`. -/
def getAllFilesActive (rows : List AnalysisRow) (fid field : String) :
    Option (String × String) :=
  (lastFor fid field (sortByTimestamp rows)).map (fun r => (r.content, modelKeyOf r))

/-- The (content, model) pair the `getDatasetRows` analysis map exposes for a
field of a dataset row: the rows are fetched with no `ORDER BY` — i.e. in
primary-key order — and folded forward, so the last row in key order (the
field's lexicographically greatest model id) wins; the model is taken
verbatim (`rec.model`). -/
def getDatasetRowsActive (rows : List AnalysisRow) (fid field : String) :
    Option (String × String) :=
  (lastFor fid field (fetchByPk rows)).map (fun r => (r.content, r.model))

/-- A reachable table: field `f` of subject `s` analyzed by model `A` at time
1, by model `B` at time 2, then re-analyzed by model `A` at time 3.  The
most recently written row for `f` is `A`'s (timestamp 3), but in the
primary-key order `getDatasetRows` reads in, model `B`'s older row comes
last. -/
def c3tbl : List AnalysisRow :=
  saveAnalysis "s"
    { metadata := none, models := [], payload := .responses [("f", [("A", "x2")])],
      usage := some ⟨0, 0⟩ } 3
    (saveAnalysis "s"
      { metadata := none, models := [], payload := .responses [("f", [("B", "y")])],
        usage := some ⟨0, 0⟩ } 2
      (saveAnalysis "s"
        { metadata := none, models := [], payload := .responses [("f", [("A", "x1")])],
          usage := some ⟨0, 0⟩ } 1 []))

/-! ## Schema migration (`initDatabase`, lines 89-254)

The schema-relevant state of the database file: for each base table whether
it exists and how many rows it holds (`CREATE TABLE IF NOT EXISTS` only ever
creates an empty missing table), the `headers` column of `datasets`, and for
the `analysis` table its declared primary-key column count, whether its SQL
still says `REFERENCES files`, whether the token columns exist, and its rows. -/

/-- Schema facts about the `analysis` table plus its contents. -/
structure AnalysisTableInfo where
  pkCount : Nat
  hasFkFiles : Bool
  hasTokenCols : Bool
  rows : List AnalysisRow
deriving Repr, DecidableEq

/-- The database state seen by the migration: `none` = table absent,
`some n` = table present with `n` rows. -/
structure DBState where
  folders : Option Nat
  files : Option Nat
  datasets : Option Nat
  datasetsHasHeaders : Bool
  datasetRows : Option Nat
  settings : Option Nat
  columnConfigs : Option Nat
  customColumns : Option Nat
  analysis : Option AnalysisTableInfo
deriving Repr, DecidableEq

/-- `CREATE TABLE IF NOT EXISTS`: a missing table becomes an empty one. -/
def ensureTable (t : Option Nat) : Option Nat :=
  some (t.getD 0)

/-- `INSERT OR IGNORE ... SELECT ... FROM analysis_old`: rows are copied in
order and an insert conflicting on `(fileId, columnId, model)` is skipped,
so the first row per key survives. -/
def dedupKeys : List AnalysisRow → List AnalysisRow
  | [] => []
  | r :: rest =>
      r :: dedupKeys (rest.filter (fun s => !(keyPred r.fileId r.columnId r.model s)))
termination_by l => l.length
decreasing_by
  simp only [List.length_cons]
  exact Nat.lt_succ_of_le (List.length_filter_le _ _)

/-- The rename/recreate/copy/drop migration of the `analysis` table: the new
table has the 3-column primary key, no foreign key to `files`, and the token
columns; rows are copied (token columns only when the old table had them,
otherwise they take their declared default 0). -/
def migrateAnalysis (info : AnalysisTableInfo) : AnalysisTableInfo :=
  let copied :=
    if info.hasTokenCols then info.rows
    else info.rows.map (fun r => { r with promptTokens := 0, responseTokens := 0 })
  { pkCount := 3, hasFkFiles := false, hasTokenCols := true, rows := dedupKeys copied }

/-- The schema portion of `initDatabase` (the `ensureSchema()` contract of the
spec): create the base tables if missing, add the `datasets.headers` column if
missing, then inspect the `analysis` table — create it fresh when absent, and
migrate it when its primary key has fewer than 3 columns or its SQL still
declares `REFERENCES files`. -/
def ensureSchema (s : DBState) : DBState :=
  let s1 : DBState :=
    { folders := ensureTable s.folders, files := ensureTable s.files,
      datasets := ensureTable s.datasets,
      datasetsHasHeaders := if s.datasets.isNone then true else s.datasetsHasHeaders,
      datasetRows := ensureTable s.datasetRows, settings := ensureTable s.settings,
      columnConfigs := ensureTable s.columnConfigs,
      customColumns := ensureTable s.customColumns, analysis := s.analysis }
  let s2 : DBState :=
    if s1.datasetsHasHeaders then s1 else { s1 with datasetsHasHeaders := true }
  match s2.analysis with
  | none =>
      { s2 with analysis := some ⟨3, false, true, []⟩ }
  | some info =>
      if info.pkCount < 3 || info.hasFkFiles then
        { s2 with analysis := some (migrateAnalysis info) }
      else s2

/-! ## Subject repositories and the wipe handler

The application state touched by `deleteFolder`, `deleteFile`,
`deleteDataset`, `clearDatabase` and the `clear-all-data` handler.  Physical
files under the two managed storage directories are lists of path names;
`better-sqlite3` enforces foreign keys by default, so
`FOREIGN KEY(folderId) REFERENCES folders(id) ON DELETE SET NULL` on `files`
fires when a folder row is deleted. -/

/-- A row of the `files` table. -/
structure FileRec where
  id : String
  name : String
  storagePath : String
  originalPath : String
  folderId : Option String
  uploadDate : String
  status : String
deriving Repr, DecidableEq

/-- A row of the `folders` table. -/
structure FolderRec where
  id : String
  name : String
deriving Repr, DecidableEq

/-- A row of the `datasets` table (`headers` is the serialized header list). -/
structure DatasetRec where
  id : String
  name : String
  storagePath : String
  uploadDate : String
  rowCount : Nat
  headers : String
deriving Repr, DecidableEq

/-- A row of the `dataset_rows` table (`data` is the serialized row object). -/
structure DRow where
  id : String
  datasetId : String
  rowIndex : Nat
  data : String
deriving Repr, DecidableEq

/-- The mutable application state. -/
structure AppState where
  folders : List FolderRec
  files : List FileRec
  datasets : List DatasetRec
  datasetRows : List DRow
  analysis : List AnalysisRow
  settings : List (String × String)
  columnConfigs : List (String × String)
  customColumns : List (String × String × String)
  pdfStorage : List String
  datasetStorage : List String
deriving Repr, DecidableEq

/-- `deleteFolder(id)` (lines 594-597): `DELETE FROM folders WHERE id = ?`
(the enforced `ON DELETE SET NULL` nulls `folderId` on the member files of
each deleted folder row) and `DELETE FROM column_configs WHERE folderId = ?`.
The `analysis` table is not touched. -/
def deleteFolder (s : AppState) (id : String) : AppState :=
  let folderExisted := s.folders.any (fun f => f.id == id)
  { s with
    folders := s.folders.filter (fun f => !(f.id == id)),
    files :=
      if folderExisted then
        s.files.map (fun f =>
          if f.folderId == some id then { f with folderId := none } else f)
      else s.files,
    columnConfigs := s.columnConfigs.filter (fun c => !(c.1 == id)) }

/-- `deleteFile(id)` (lines 364-381): in one transaction
`DELETE FROM files WHERE id = ?` and
`DELETE FROM analysis WHERE fileId = ?` (the manual cascade); then the
physical file at the stored `storagePath` is removed best-effort. -/
def deleteFile (s : AppState) (id : String) : AppState :=
  let stored := (s.files.find? (fun f => f.id == id)).map (fun f => f.storagePath)
  { s with
    files := s.files.filter (fun f => !(f.id == id)),
    analysis := s.analysis.filter (fun a => !(a.fileId == id)),
    pdfStorage :=
      match stored with
      | some p => s.pdfStorage.filter (fun q => !(q == p))
      | none => s.pdfStorage }

/-- `deleteDataset(id)` (lines 414-443): collect the ids of the dataset's
rows, delete their analysis rows (`WHERE fileId IN (...)`, skipped when the
id list is empty), delete the rows, delete the dataset, then best-effort
delete the stored source file. -/
def deleteDataset (s : AppState) (id : String) : AppState :=
  let rowIds := (s.datasetRows.filter (fun r => r.datasetId == id)).map (fun r => r.id)
  let stored := (s.datasets.find? (fun d => d.id == id)).map (fun d => d.storagePath)
  { s with
    analysis :=
      if rowIds.isEmpty then s.analysis
      else s.analysis.filter (fun a => !(rowIds.contains a.fileId)),
    datasetRows := s.datasetRows.filter (fun r => !(r.datasetId == id)),
    datasets := s.datasets.filter (fun d => !(d.id == id)),
    datasetStorage :=
      match stored with
      | some p => s.datasetStorage.filter (fun q => !(q == p))
      | none => s.datasetStorage }

/-- `clearDatabase()` (lines 768-781): one transaction deleting every row of
`analysis`, `files`, `folders` and `column_configs` — and nothing else. -/
def clearDatabase (s : AppState) : AppState :=
  { s with analysis := [], files := [], folders := [], columnConfigs := [] }

/-- The `clear-all-data` IPC handler (`src/unnamed/part_005`, lines 415-425):
`clearDatabase()` followed by `fs.emptyDir` on the PDF storage directory and
the dataset storage directory. -/
def clearAllData (s : AppState) : AppState :=
  { clearDatabase s with pdfStorage := [], datasetStorage := [] }

/-! ## Dataset-row pagination (`getDatasetRows`, lines 458-526) -/

/-- `data LIKE '%search%'`: SQLite `LIKE` is ASCII case-insensitive substring
matching here (wildcard characters inside the user search text are not
modelled). -/
def likeMatch (data pat : String) : Bool :=
  decide ((pat.toList.map Char.toLower) <:+: (data.toList.map Char.toLower))

/-- The rows the `WHERE` clause of `getDatasetRows` selects:
`datasetId = ?` plus, only when `search` is non-empty (a falsy empty string
skips the clause), `data LIKE '%search%'`. -/
def matchingRows (tbl : List DRow) (datasetId search : String) : List DRow :=
  tbl.filter (fun r => r.datasetId == datasetId && (search == "" || likeMatch r.data search))

/-- The order `ORDER BY rowIndex ASC` sorts by. -/
def rowIndexLe (a b : DRow) : Prop :=
  a.rowIndex ≤ b.rowIndex

instance : DecidableRel rowIndexLe :=
  fun a b => Nat.decLe a.rowIndex b.rowIndex

instance : IsTotal DRow rowIndexLe :=
  ⟨fun a b => Nat.le_total a.rowIndex b.rowIndex⟩

instance : IsTrans DRow rowIndexLe :=
  ⟨fun _ _ _ hab hbc => Nat.le_trans hab hbc⟩

/-- `ORDER BY rowIndex ASC` as a stable sort (SQLite leaves the order of
ties to the scan, which is rowid order; the stable sort keeps exactly that
order for ties). -/
def sortByRowIndex (l : List DRow) : List DRow :=
  List.insertionSort rowIndexLe l

/-- The `{ rows, total }` object returned by `getDatasetRows`. -/
structure PageResult where
  rows : List DRow
  total : Nat
deriving Repr, DecidableEq

/-- `getDatasetRows(datasetId, { limit, offset, search })`: count the
matching rows (`SELECT COUNT(*)` over the same `WHERE` clause), fetch the
page `ORDER BY rowIndex ASC LIMIT ? OFFSET ?`, and —
`if (rows.length === 0) return { rows: [], total: 0 }` — report `total = 0`
whenever the fetched page is empty.  (The per-row analysis attachment built
from the same rows is the forward-overwrite fold modelled by
`getDatasetRowsActive`.) -/
def getDatasetRows (tbl : List DRow) (datasetId : String) (limit offset : Nat)
    (search : String) : PageResult :=
  let matching := matchingRows tbl datasetId search
  let total := matching.length
  let page := ((sortByRowIndex matching).drop offset).take limit
  if page.isEmpty then { rows := [], total := 0 } else { rows := page, total := total }

/-! ## CSV export escaping (`export-dataset-csv` handler, `src/unnamed/part_005`) -/

/-- `str.replace(/"/g, '""')` at the character level. -/
def escQuotes : List Char → List Char
  | [] => []
  | c :: rest => if c == '"' then '"' :: '"' :: escQuotes rest else c :: escQuotes rest

/-- Does the value contain a double quote, a comma, or a newline
(`str.includes('"') || str.includes(',') || str.includes('\n')`)? -/
def needsQuoting (l : List Char) : Bool :=
  l.any (fun c => c == '"' || c == ',' || c == '\n')

/-- The `esc` helper of the `export-dataset-csv` handler (lines 245-252):
`null`/`undefined` become `""`; a value containing a quote, comma, or newline
is wrapped in double quotes with embedded quotes doubled; any other value is
written bare. -/
def esc (val : Option String) : String :=
  match val with
  | none => String.mk ['"', '"']
  | some s =>
      if needsQuoting s.toList then String.mk ('"' :: escQuotes s.toList ++ ['"'])
      else s

/-- Modelled from the spec: the repository has no CSV reader, so "parses back
with standard CSV rules" is embedded as the standard single-field rule — a
token enclosed in double quotes has the quotes stripped and every doubled
quote collapsed; any other token is the value itself. -/
def unescQuotes : List Char → List Char
  | [] => []
  | [c] => [c]
  | c :: c2 :: rest =>
      if c == '"' && c2 == '"' then '"' :: unescQuotes rest
      else c :: unescQuotes (c2 :: rest)

/-- Modelled from the spec: standard CSV parsing of one field (see
`unescQuotes`).  A token that starts and ends with a double quote is
unquoted and unescaped; any other token is taken verbatim. -/
def parseCsvField (t : String) : String :=
  match t.toList with
  | [] => t
  | c :: rest =>
      if c == '"' && rest.getLast? == some '"' then String.mk (unescQuotes rest.dropLast)
      else t

/-! ## Helper definitions and concrete fixtures for the claims -/

/-- The row produced by the `DO UPDATE` arm of the upsert. -/
def updRow (r new : AnalysisRow) : AnalysisRow :=
  { r with content := new.content, timestamp := new.timestamp,
           promptTokens := r.promptTokens + new.promptTokens,
           responseTokens := r.responseTokens + new.responseTokens }

/-- The effect of one `WriteReq` on the cached row for its key. -/
def applyWrite (r : AnalysisRow) (w : WriteReq) : AnalysisRow :=
  { r with content := w.content, timestamp := w.ts,
           promptTokens := r.promptTokens + w.usage.promptTokens,
           responseTokens := r.responseTokens + w.usage.responseTokens }

/-- The accumulated effect of a write sequence on the cached row for its key. -/
def foldUpd (r : AnalysisRow) : List WriteReq → AnalysisRow
  | [] => r
  | w :: ws => foldUpd (applyWrite r w) ws

/-- Is the `analysis` table in its current shape (present, 3-column primary
key, no declared foreign key to `files`) — i.e. does neither migration
condition of `initDatabase` hold? -/
def schemaCurrent : Option AnalysisTableInfo → Bool
  | none => false
  | some info => !(decide (info.pkCount < 3) || info.hasFkFiles)

/-- All tables present, `datasets.headers` present, `analysis` current. -/
def goodShape (s : DBState) : Bool :=
  s.folders.isSome && s.files.isSome && s.datasets.isSome && s.datasetsHasHeaders &&
    s.datasetRows.isSome && s.settings.isSome && s.columnConfigs.isSome &&
    s.customColumns.isSome && schemaCurrent s.analysis

/-- C3 witness table: field `f` of subject `s` written by model `A` at time
1, then by model `B` at time 2. -/
def c3wtbl : List AnalysisRow :=
  [{ fileId := "s", columnId := "f", content := "x", model := "A",
     timestamp := 1, promptTokens := 0, responseTokens := 0 },
   { fileId := "s", columnId := "f", content := "y", model := "B",
     timestamp := 2, promptTokens := 0, responseTokens := 0 }]

/-- The row both views select on `c3wtbl`: model `B`'s, which has both the
maximal timestamp and the greatest model id. -/
def c3wrow : AnalysisRow :=
  { fileId := "s", columnId := "f", content := "y", model := "B",
    timestamp := 2, promptTokens := 0, responseTokens := 0 }

/-- The member file of the C5 witness state. -/
def c5file : FileRec :=
  { id := "f1", name := "n", storagePath := "sp", originalPath := "op",
    folderId := some "fo", uploadDate := "u", status := "completed" }

/-- C5 witness state: one folder `"fo"`, one member file, one cache row. -/
def c5state : AppState :=
  { folders := [{ id := "fo", name := "F" }], files := [c5file],
    datasets := [], datasetRows := [],
    analysis := [{ fileId := "f1", columnId := "sum", content := "c", model := "m",
                   timestamp := 1, promptTokens := 2, responseTokens := 3 }],
    settings := [], columnConfigs := [("fo", "cfg")], customColumns := [],
    pdfStorage := [], datasetStorage := [] }

/-- C6 witness state: one document `"f1"` (one cache row) and one dataset
`"d1"` with one row `"r1"` (one cache row). -/
def c6state : AppState :=
  { folders := [],
    files := [{ id := "f1", name := "n", storagePath := "sp", originalPath := "op",
                folderId := none, uploadDate := "u", status := "completed" }],
    datasets := [{ id := "d1", name := "D", storagePath := "dp", uploadDate := "u",
                   rowCount := 1, headers := "h" }],
    datasetRows := [{ id := "r1", datasetId := "d1", rowIndex := 0, data := "x" }],
    analysis := [{ fileId := "f1", columnId := "sum", content := "c", model := "m",
                   timestamp := 1, promptTokens := 0, responseTokens := 0 },
                 { fileId := "r1", columnId := "sum", content := "c2", model := "m",
                   timestamp := 2, promptTokens := 0, responseTokens := 0 }],
    settings := [], columnConfigs := [], customColumns := [],
    pdfStorage := [], datasetStorage := [] }

/-- Imported dataset row A of the C8 scenario (`data` stands for the
serialized row payload). -/
def c8rowA : DRow := { id := "r1", datasetId := "ds", rowIndex := 0, data := "A" }

/-- Imported dataset row B of the C8 scenario. -/
def c8rowB : DRow := { id := "r2", datasetId := "ds", rowIndex := 1, data := "B" }

/-- Imported dataset row C of the C8 scenario. -/
def c8rowC : DRow := { id := "r3", datasetId := "ds", rowIndex := 2, data := "C" }

/-- The `dataset_rows` table after importing the three-row dataset. -/
def c8tbl : List DRow := [c8rowA, c8rowB, c8rowC]

/-- C9 witness/counterexample state: every table and both storage
directories non-empty. -/
def c9state : AppState :=
  { folders := [{ id := "fo", name := "F" }],
    files := [{ id := "f1", name := "n", storagePath := "sp", originalPath := "op",
                folderId := some "fo", uploadDate := "u", status := "completed" }],
    datasets := [{ id := "d1", name := "D", storagePath := "dp", uploadDate := "u",
                   rowCount := 1, headers := "h" }],
    datasetRows := [{ id := "r1", datasetId := "d1", rowIndex := 0, data := "x" }],
    analysis := [{ fileId := "f1", columnId := "sum", content := "c", model := "m",
                   timestamp := 1, promptTokens := 0, responseTokens := 0 }],
    settings := [("k", "v")], columnConfigs := [("fo", "cfg")],
    customColumns := [("cc", "L", "P")],
    pdfStorage := ["p.pdf"], datasetStorage := ["d.csv"] }

/-- The C10 witness table: one dataset row matching the query. -/
def c10tbl : List DRow := [{ id := "r1", datasetId := "d", rowIndex := 0, data := "A" }]

/-! ## Lemmas about the upsert and write sequences -/

lemma keyPred_eq_true {f c m : String} {r : AnalysisRow} :
    keyPred f c m r = true ↔ r.fileId = f ∧ r.columnId = c ∧ r.model = m := by
  simp [keyPred, and_assoc]

lemma any_eq_false_of_keyRows_nil {t : List AnalysisRow} {f c m : String}
    (h : keyRows t f c m = []) : t.any (keyPred f c m) = false := by
  rw [List.any_eq_false]
  intro x hx hpx
  have hmem : x ∈ keyRows t f c m := List.mem_filter.mpr ⟨hx, hpx⟩
  rw [h] at hmem
  exact absurd hmem (List.not_mem_nil x)

lemma upsertAnalysis_not_found {t : List AnalysisRow} {new : AnalysisRow}
    (h : t.any (keyPred new.fileId new.columnId new.model) = false) :
    upsertAnalysis t new = t ++ [new] := by
  simp [upsertAnalysis, h]

lemma filter_map_eq (g : AnalysisRow → AnalysisRow) (p : AnalysisRow → Bool)
    (hg : ∀ x, p (g x) = p x) :
    ∀ t : List AnalysisRow, (t.map g).filter p = (t.filter p).map g
  | [] => by simp
  | a :: t => by
      simp only [List.map_cons, List.filter_cons, hg a]
      cases h : p a <;> simp [h, filter_map_eq g p hg t]

lemma keyRows_upsert_found {t : List AnalysisRow} {f c m : String} {r new : AnalysisRow}
    (hk : keyRows t f c m = [r])
    (hf : new.fileId = f) (hc : new.columnId = c) (hm : new.model = m) :
    keyRows (upsertAnalysis t new) f c m = [updRow r new] := by
  have hr : r ∈ keyRows t f c m := by rw [hk]; exact List.mem_singleton.mpr rfl
  have hrt : r ∈ t := (List.mem_filter.mp hr).1
  have hrp : keyPred f c m r = true := (List.mem_filter.mp hr).2
  have hany : t.any (keyPred new.fileId new.columnId new.model) = true := by
    rw [hf, hc, hm, List.any_eq_true]
    exact ⟨r, hrt, hrp⟩
  rw [upsertAnalysis, if_pos hany, hf, hc, hm]
  have hg : ∀ x, keyPred f c m (if keyPred f c m x then updRow x new else x) = keyPred f c m x := by
    intro x
    cases hx : keyPred f c m x
    · simp [hx]
    · simp only [if_pos rfl]
      obtain ⟨h1, h2, h3⟩ := keyPred_eq_true.mp hx
      simp [keyPred, updRow, h1, h2, h3]
  calc ((t.map (fun x => if keyPred f c m x then updRow x new else x)).filter (keyPred f c m))
      = (t.filter (keyPred f c m)).map (fun x => if keyPred f c m x then updRow x new else x) := by
        exact filter_map_eq _ _ hg t
    _ = [updRow r new] := by
        rw [show t.filter (keyPred f c m) = [r] from hk]
        simp [hrp]

lemma saveAnalysis_single (f c m v : String) (u : Usage) (ts : Nat)
    (t : List AnalysisRow) :
    saveAnalysis f
      { metadata := none, models := [], payload := .responses [(c, [(m, v)])],
        usage := some u } ts t =
    upsertAnalysis t
      { fileId := f, columnId := c, content := v, model := m, timestamp := ts,
        promptTokens := u.promptTokens, responseTokens := u.responseTokens } := rfl

lemma foldUpd_closed (ws : List WriteReq) : ∀ (w : WriteReq) (r : AnalysisRow),
    foldUpd r (w :: ws) =
      { r with content := (lastD w ws).content, timestamp := (lastD w ws).ts,
               promptTokens := r.promptTokens + (w.usage.promptTokens + sumPrompt ws),
               responseTokens :=
                 r.responseTokens + (w.usage.responseTokens + sumResp ws) } := by
  induction ws with
  | nil =>
      intro w r
      simp [foldUpd, applyWrite, lastD, sumPrompt, sumResp]
  | cons w2 ws ih =>
      intro w r
      show foldUpd (applyWrite r w) (w2 :: ws) = _
      rw [ih w2 (applyWrite r w)]
      simp [applyWrite, lastD, sumPrompt, sumResp, Nat.add_assoc]

lemma writeSeq_key (f c m : String) :
    ∀ (ws : List WriteReq) (t : List AnalysisRow) (r : AnalysisRow),
      keyRows t f c m = [r] →
      keyRows (writeSeq f c m ws t) f c m = [foldUpd r ws]
  | [], t, r, h => by simpa [writeSeq, foldUpd] using h
  | w :: ws, t, r, h => by
      rw [writeSeq, saveAnalysis_single]
      have hk : keyRows (upsertAnalysis t
          { fileId := f, columnId := c, content := w.content, model := m,
            timestamp := w.ts, promptTokens := w.usage.promptTokens,
            responseTokens := w.usage.responseTokens }) f c m =
          [updRow r
            { fileId := f, columnId := c, content := w.content, model := m,
              timestamp := w.ts, promptTokens := w.usage.promptTokens,
              responseTokens := w.usage.responseTokens }] :=
        keyRows_upsert_found h rfl rfl rfl
      rw [writeSeq_key f c m ws _ _ hk]
      rfl

/-! ## Claims C1 and C2 -/

/-- Claim C1: for every subject/field/model triple, after any sequence of N
`saveAnalysis` writes to that triple (starting from a table with no row for
the triple), exactly one row of the `analysis` table carries that key; its
content and timestamp are those of the last write, and its `promptTokens`
and `responseTokens` each equal the sum over all N writes. -/
theorem c1_upsert_key_accumulation (f c m : String) (w : WriteReq)
    (ws : List WriteReq) (t0 : List AnalysisRow) (h0 : keyRows t0 f c m = []) :
    keyRows (writeSeq f c m (w :: ws) t0) f c m =
      [{ fileId := f, columnId := c, content := (lastD w ws).content, model := m,
         timestamp := (lastD w ws).ts,
         promptTokens := w.usage.promptTokens + sumPrompt ws,
         responseTokens := w.usage.responseTokens + sumResp ws }] := by
  rw [writeSeq, saveAnalysis_single]
  have h1 : keyRows (upsertAnalysis t0
      { fileId := f, columnId := c, content := w.content, model := m,
        timestamp := w.ts, promptTokens := w.usage.promptTokens,
        responseTokens := w.usage.responseTokens }) f c m =
      [{ fileId := f, columnId := c, content := w.content, model := m,
         timestamp := w.ts, promptTokens := w.usage.promptTokens,
         responseTokens := w.usage.responseTokens }] := by
    rw [upsertAnalysis_not_found (any_eq_false_of_keyRows_nil h0)]
    rw [keyRows, List.filter_append]
    rw [show t0.filter (keyPred f c m) = [] from h0]
    simp [keyPred]
  rw [writeSeq_key f c m ws _ _ h1]
  have hbase :
      ({ fileId := f, columnId := c, content := w.content, model := m,
         timestamp := w.ts, promptTokens := w.usage.promptTokens,
         responseTokens := w.usage.responseTokens } : AnalysisRow) =
      applyWrite
        { fileId := f, columnId := c, content := w.content, model := m,
          timestamp := w.ts, promptTokens := 0, responseTokens := 0 } w := by
    simp [applyWrite]
  rw [hbase, show ∀ r, foldUpd (applyWrite r w) ws = foldUpd r (w :: ws) from fun r => rfl,
      foldUpd_closed ws w]
  simp

/-- Witness for C1: two writes to `("d", "sum", "mA")` — contents `"a"` then
`"b"`, usages `(2, 3)` then `(5, 7)`, timestamps 1 then 2 — leave exactly one
row with content `"b"`, timestamp 2, and token sums 7 and 10. -/
theorem c1_upsert_key_accumulation_witness :
    keyRows [] "d" "sum" "mA" = [] ∧
    keyRows (writeSeq "d" "sum" "mA" [⟨"a", ⟨2, 3⟩, 1⟩, ⟨"b", ⟨5, 7⟩, 2⟩] []) "d" "sum" "mA" =
      [{ fileId := "d", columnId := "sum", content := "b", model := "mA",
         timestamp := 2, promptTokens := 7, responseTokens := 10 }] := by
  refine ⟨rfl, ?_⟩
  have h := c1_upsert_key_accumulation "d" "sum" "mA" ⟨"a", ⟨2, 3⟩, 1⟩
    [⟨"b", ⟨5, 7⟩, 2⟩] [] rfl
  simpa using h

/-- The Claim C2 input on which the code breaks the charged-once invariant:
one `saveAnalysis` call writing two fields whose `_usage` reports
`promptTokens = 0, responseTokens = 5`.  `tokensCharged` is only ever set
when `usage.promptTokens > 0`, so the 5 response tokens are added to BOTH
written rows: the table sums to 10 response tokens although the call spent 5.
(The claim — and the spec invariant — require the sum across the subject's
rows to increase by exactly the call's total usage.) -/
theorem c2_response_tokens_double_charged :
    saveAnalysis "s"
      { metadata := none, models := [],
        payload := .responses [("a", [("m", "x")]), ("b", [("m", "y")])],
        usage := some ⟨0, 5⟩ } 1 [] =
      [{ fileId := "s", columnId := "a", content := "x", model := "m",
         timestamp := 1, promptTokens := 0, responseTokens := 5 },
       { fileId := "s", columnId := "b", content := "y", model := "m",
         timestamp := 1, promptTokens := 0, responseTokens := 5 }] ∧
    tableRespTokens
      (saveAnalysis "s"
        { metadata := none, models := [],
          payload := .responses [("a", [("m", "x")]), ("b", [("m", "y")])],
          usage := some ⟨0, 5⟩ } 1 []) = 10 := by
  exact ⟨by decide, by decide⟩

/-! ## Lemmas about the merged-view selection -/

lemma charsLe_refl : ∀ l : List Char, charsLe l l = true
  | [] => rfl
  | c :: cs => by
      rw [charsLe, if_pos rfl]
      exact charsLe_refl cs

lemma charsLe_total : ∀ a b : List Char, charsLe a b = true ∨ charsLe b a = true
  | [], _ => Or.inl rfl
  | _ :: _, [] => Or.inr rfl
  | c :: cs, d :: ds => by
      by_cases hcd : c = d
      · rw [charsLe, if_pos hcd, charsLe, if_pos hcd.symm]
        exact charsLe_total cs ds
      · rcases lt_trichotomy c d with h | h | h
        · left
          rw [charsLe, if_neg hcd]
          exact decide_eq_true h
        · exact absurd h hcd
        · right
          rw [charsLe, if_neg (Ne.symm hcd)]
          exact decide_eq_true h

lemma charsLe_antisymm : ∀ {a b : List Char},
    charsLe a b = true → charsLe b a = true → a = b
  | [], [], _, _ => rfl
  | [], _ :: _, _, h2 => by rw [charsLe] at h2; cases h2
  | _ :: _, [], h1, _ => by rw [charsLe] at h1; cases h1
  | c :: cs, d :: ds, h1, h2 => by
      by_cases hcd : c = d
      · rw [charsLe, if_pos hcd] at h1
        rw [charsLe, if_pos hcd.symm] at h2
        rw [hcd, charsLe_antisymm h1 h2]
      · rw [charsLe, if_neg hcd] at h1
        rw [charsLe, if_neg (Ne.symm hcd)] at h2
        exact absurd (lt_trans (of_decide_eq_true h1) (of_decide_eq_true h2)) (lt_irrefl c)

lemma charsLe_trans : ∀ {a b c : List Char},
    charsLe a b = true → charsLe b c = true → charsLe a c = true
  | [], _, _, _, _ => rfl
  | _ :: _, [], _, h1, _ => by rw [charsLe] at h1; cases h1
  | _ :: _, _ :: _, [], _, h2 => by rw [charsLe] at h2; cases h2
  | a :: as, b :: bs, c :: cs, h1, h2 => by
      by_cases hab : a = b
      · rw [charsLe, if_pos hab] at h1
        by_cases hbc : b = c
        · rw [charsLe, if_pos hbc] at h2
          rw [charsLe, if_pos (hab.trans hbc)]
          exact charsLe_trans h1 h2
        · rw [charsLe, if_neg hbc] at h2
          rw [charsLe, if_neg (by rw [hab]; exact hbc), hab]
          exact h2
      · rw [charsLe, if_neg hab] at h1
        by_cases hbc : b = c
        · rw [charsLe, if_neg (fun h => hab (h.trans hbc.symm)), ← hbc]
          exact h1
        · rw [charsLe, if_neg hbc] at h2
          have hac : a < c := lt_trans (of_decide_eq_true h1) (of_decide_eq_true h2)
          rw [charsLe, if_neg (ne_of_lt hac)]
          exact decide_eq_true hac

lemma strLe_refl (a : String) : strLe a a = true :=
  charsLe_refl a.toList

lemma strLe_total (a b : String) : strLe a b = true ∨ strLe b a = true :=
  charsLe_total a.toList b.toList

lemma strLe_antisymm {a b : String} (h1 : strLe a b = true) (h2 : strLe b a = true) :
    a = b :=
  String.toList_inj.mp (charsLe_antisymm h1 h2)

lemma strLe_trans {a b c : String} (h1 : strLe a b = true) (h2 : strLe b c = true) :
    strLe a c = true :=
  charsLe_trans h1 h2

lemma pkLeB_refl (a : AnalysisRow) : pkLeB a a = true := by
  rw [pkLeB, if_pos rfl, if_pos rfl]
  exact strLe_refl a.model

lemma pkLeB_total (a b : AnalysisRow) : pkLeB a b = true ∨ pkLeB b a = true := by
  rw [pkLeB, pkLeB]
  by_cases hf : a.fileId = b.fileId
  · rw [if_pos hf, if_pos hf.symm]
    by_cases hc : a.columnId = b.columnId
    · rw [if_pos hc, if_pos hc.symm]
      exact strLe_total a.model b.model
    · rw [if_neg hc, if_neg (Ne.symm hc)]
      exact strLe_total a.columnId b.columnId
  · rw [if_neg hf, if_neg (Ne.symm hf)]
    exact strLe_total a.fileId b.fileId

lemma pkLeB_trans {a b c : AnalysisRow} (hab : pkLeB a b = true)
    (hbc : pkLeB b c = true) : pkLeB a c = true := by
  rw [pkLeB] at hab hbc ⊢
  by_cases hf1 : a.fileId = b.fileId
  · rw [if_pos hf1] at hab
    by_cases hf2 : b.fileId = c.fileId
    · rw [if_pos hf2] at hbc
      rw [if_pos (hf1.trans hf2)]
      by_cases hc1 : a.columnId = b.columnId
      · rw [if_pos hc1] at hab
        by_cases hc2 : b.columnId = c.columnId
        · rw [if_pos hc2] at hbc
          rw [if_pos (hc1.trans hc2)]
          exact strLe_trans hab hbc
        · rw [if_neg hc2] at hbc
          rw [if_neg (by rw [hc1]; exact hc2), hc1]
          exact hbc
      · rw [if_neg hc1] at hab
        by_cases hc2 : b.columnId = c.columnId
        · rw [if_neg (fun h => hc1 (h.trans hc2.symm)), ← hc2]
          exact hab
        · rw [if_neg hc2] at hbc
          by_cases hac : a.columnId = c.columnId
          · exfalso
            rw [← hac] at hbc
            exact hc1 (strLe_antisymm hab hbc)
          · rw [if_neg hac]
            exact strLe_trans hab hbc
    · rw [if_neg hf2] at hbc
      rw [if_neg (by rw [hf1]; exact hf2), hf1]
      exact hbc
  · rw [if_neg hf1] at hab
    by_cases hf2 : b.fileId = c.fileId
    · rw [if_neg (fun h => hf1 (h.trans hf2.symm)), ← hf2]
      exact hab
    · rw [if_neg hf2] at hbc
      by_cases hac : a.fileId = c.fileId
      · exfalso
        rw [← hac] at hbc
        exact hf1 (strLe_antisymm hab hbc)
      · rw [if_neg hac]
        exact strLe_trans hab hbc

lemma lastFor_mem {fid field : String} {l : List AnalysisRow} {r : AnalysisRow}
    (h : lastFor fid field l = some r) : r ∈ l := by
  induction l with
  | nil => simp [lastFor] at h
  | cons a rest ih =>
      rw [lastFor] at h
      cases hr : lastFor fid field rest with
      | some r2 =>
          rw [hr] at h
          injection h with h2
          rw [h2] at hr
          exact List.mem_cons_of_mem a (ih hr)
      | none =>
          rw [hr] at h
          by_cases hc : (a.fileId == fid && a.columnId == field) = true
          · rw [if_pos hc] at h
            injection h with h2
            rw [← h2]
            exact List.mem_cons_self a rest
          · rw [if_neg hc] at h
            cases h

lemma lastFor_none {fid field : String} {l : List AnalysisRow}
    (h : lastFor fid field l = none) :
    ∀ x ∈ l, (x.fileId == fid && x.columnId == field) = false := by
  induction l with
  | nil => intro x hx; cases hx
  | cons a rest ih =>
      rw [lastFor] at h
      cases hr : lastFor fid field rest with
      | some r2 => rw [hr] at h; cases h
      | none =>
          rw [hr] at h
          intro x hx
          rcases List.mem_cons.mp hx with hxa | hxr
          · cases hb : (a.fileId == fid && a.columnId == field)
            · rw [hxa]; exact hb
            · rw [hb] at h; simp at h
          · exact ih hr x hxr

lemma lastFor_matches {fid field : String} : ∀ {l : List AnalysisRow} {r : AnalysisRow},
    lastFor fid field l = some r → (r.fileId == fid && r.columnId == field) = true := by
  intro l
  induction l with
  | nil => intro r h; simp [lastFor] at h
  | cons a rest ih =>
      intro r h
      rw [lastFor] at h
      cases hr : lastFor fid field rest with
      | some r2 =>
          rw [hr] at h
          injection h with h2
          rw [h2] at hr
          exact ih hr
      | none =>
          rw [hr] at h
          by_cases hc : (a.fileId == fid && a.columnId == field) = true
          · rw [if_pos hc] at h
            injection h with h2
            rw [← h2]
            exact hc
          · rw [if_neg hc] at h
            cases h

/-- In a list that is pairwise ordered by a reflexive relation `le`, the
last row matching `(fid, field)` is `le`-above every matching row. -/
lemma lastFor_le_of_pairwise {le : AnalysisRow → AnalysisRow → Prop}
    (hrefl : ∀ a, le a a) {fid field : String} :
    ∀ {l : List AnalysisRow} {r : AnalysisRow}, l.Pairwise le →
      lastFor fid field l = some r →
      ∀ x ∈ l, (x.fileId == fid && x.columnId == field) = true → le x r := by
  intro l
  induction l with
  | nil => intro r _ _ x hx; cases hx
  | cons a rest ih =>
      intro r hpw h x hx hxm
      rw [List.pairwise_cons] at hpw
      rw [lastFor] at h
      cases hr : lastFor fid field rest with
      | some r2 =>
          rw [hr] at h
          injection h with h2
          rw [h2] at hr
          rcases List.mem_cons.mp hx with hxa | hxr
          · rw [hxa]
            exact hpw.1 r (lastFor_mem hr)
          · exact ih hpw.2 hr x hxr hxm
      | none =>
          rw [hr] at h
          rcases List.mem_cons.mp hx with hxa | hxr
          · rw [← hxa] at h
            rw [hxm] at h
            simp only [if_true] at h
            injection h with h2
            rw [← h2]
            exact hrefl x
          · have := lastFor_none hr x hxr
            rw [hxm] at this
            cases this

/-- Between two rows of the same subject and field, the primary-key order is
exactly the order of their model ids. -/
lemma pkLe_same_key {a b : AnalysisRow} (hf : a.fileId = b.fileId)
    (hc : a.columnId = b.columnId) : pkLe a b ↔ strLe a.model b.model = true := by
  show pkLeB a b = true ↔ _
  rw [pkLeB, if_pos hf, if_pos hc]

/-! ## Claim C3 -/

/-- Claim C3 as stated is refuted on the reachable table `c3tbl` (field `f`
analyzed by model `A` at time 1, model `B` at time 2, model `A` re-analyzed
at time 3): the most recently written row for `f` is `A`'s (content `x2`,
timestamp 3), and `getAllFiles` (which fetches `ORDER BY timestamp ASC`)
exposes it, but the `getDatasetRows` reconstruction (which fetches with no
`ORDER BY` and is served in `(fileId, columnId, model)` primary-key-index
order, where model `B` sorts after model `A`) exposes `B`'s older value
`y` — so the two merged views do NOT both expose the most recently written
row. -/
theorem c3_counterexample :
    c3tbl =
      [{ fileId := "s", columnId := "f", content := "x2", model := "A",
         timestamp := 3, promptTokens := 0, responseTokens := 0 },
       { fileId := "s", columnId := "f", content := "y", model := "B",
         timestamp := 2, promptTokens := 0, responseTokens := 0 }] ∧
    getAllFilesActive c3tbl "s" "f" = some ("x2", "A") ∧
    getDatasetRowsActive c3tbl "s" "f" = some ("y", "B") := by
  exact ⟨by decide, by decide, by decide⟩

/-- Claim C3 (amended): for a fixed set of cache rows both merged views are
deterministic functions of the row set, but they select differently.
`getAllFiles` exposes, per field, a most-recently-written row: the content
and model of a row `rA` whose timestamp is maximal among the subject's rows
for that field.  `getDatasetRows` exposes the row `rD` its primary-key-index
read order serves last: the row whose model id is lexicographically maximal
(in the BINARY collation order `strLe`) among the subject's rows for that
field — which need not be the most recently written one. -/
theorem c3_view_selection (rows : List AnalysisRow) (fid field : String)
    (rA rD : AnalysisRow)
    (hA : lastFor fid field (sortByTimestamp rows) = some rA)
    (hD : lastFor fid field (fetchByPk rows) = some rD) :
    getAllFilesActive rows fid field = some (rA.content, modelKeyOf rA) ∧
    getDatasetRowsActive rows fid field = some (rD.content, rD.model) ∧
    (∀ x ∈ rows, (x.fileId == fid && x.columnId == field) = true →
      x.timestamp ≤ rA.timestamp) ∧
    (∀ x ∈ rows, (x.fileId == fid && x.columnId == field) = true →
      strLe x.model rD.model = true) := by
  refine ⟨?_, ?_, ?_, ?_⟩
  · rw [getAllFilesActive, hA]
    rfl
  · rw [getDatasetRowsActive, hD]
    rfl
  · intro x hx hm
    have hs : (sortByTimestamp rows).Pairwise tsLe :=
      List.sorted_insertionSort tsLe rows
    have hx2 : x ∈ sortByTimestamp rows :=
      (List.perm_insertionSort tsLe rows).symm.subset hx
    exact lastFor_le_of_pairwise (fun a => Nat.le_refl a.timestamp) hs hA x hx2 hm
  · intro x hx hm
    haveI : IsTotal AnalysisRow pkLe := ⟨pkLeB_total⟩
    haveI : IsTrans AnalysisRow pkLe := ⟨fun _ _ _ => pkLeB_trans⟩
    have hs : (fetchByPk rows).Pairwise pkLe :=
      List.sorted_insertionSort pkLe rows
    have hx2 : x ∈ fetchByPk rows :=
      (List.perm_insertionSort pkLe rows).symm.subset hx
    have hle : pkLe x rD :=
      lastFor_le_of_pairwise pkLeB_refl hs hD x hx2 hm
    have hxm : x.fileId = fid ∧ x.columnId = field := by
      simpa using hm
    have hrm : rD.fileId = fid ∧ rD.columnId = field := by
      simpa using lastFor_matches hD
    exact (pkLe_same_key (hxm.1.trans hrm.1.symm) (hxm.2.trans hrm.2.symm)).mp hle

/-- Witness for C3 (amended): on the two-row table `c3wtbl` (field `f` by
model `A` at time 1, then model `B` at time 2) both views select `B`'s row
`c3wrow`, whose timestamp and model id are both maximal. -/
theorem c3_view_selection_witness :
    lastFor "s" "f" (sortByTimestamp c3wtbl) = some c3wrow ∧
    lastFor "s" "f" (fetchByPk c3wtbl) = some c3wrow ∧
    getAllFilesActive c3wtbl "s" "f" = some ("y", "B") ∧
    getDatasetRowsActive c3wtbl "s" "f" = some ("y", "B") ∧
    (∀ x ∈ c3wtbl, (x.fileId == "s" && x.columnId == "f") = true →
      x.timestamp ≤ c3wrow.timestamp) := by
  refine ⟨by decide, by decide, ?_, ?_, ?_⟩
  · exact (c3_view_selection c3wtbl "s" "f" c3wrow c3wrow (by decide) (by decide)).1
  · exact (c3_view_selection c3wtbl "s" "f" c3wrow c3wrow (by decide) (by decide)).2.1
  · exact (c3_view_selection c3wtbl "s" "f" c3wrow c3wrow (by decide) (by decide)).2.2.1

/-! ## Claim C4 -/

lemma ensureSchema_of_goodShape {s : DBState} (h : goodShape s = true) :
    ensureSchema s = s := by
  obtain ⟨fo, fi, ds, dh, dr, se, cc, cu, an⟩ := s
  simp only [goodShape, Bool.and_eq_true, Option.isSome_iff_exists] at h
  obtain ⟨⟨⟨⟨⟨⟨⟨⟨⟨n1, h1⟩, n2, h2⟩, n3, h3⟩, h4⟩, n5, h5⟩, n6, h6⟩, n7, h7⟩, n8, h8⟩, h9⟩ := h
  subst h1 h2 h3 h5 h6 h7 h8
  cases an with
  | none => simp [schemaCurrent] at h9
  | some info =>
      simp only [schemaCurrent, Bool.not_eq_true', Bool.or_eq_false_iff] at h9
      simp [ensureSchema, ensureTable, h4, h9.1, h9.2]

lemma goodShape_ensureSchema (s : DBState) : goodShape (ensureSchema s) = true := by
  obtain ⟨fo, fi, ds, dh, dr, se, cc, cu, an⟩ := s
  cases an with
  | none =>
      cases ds <;> cases dh <;>
        simp [ensureSchema, ensureTable, goodShape, schemaCurrent]
  | some info =>
      by_cases hc : (decide (info.pkCount < 3) || info.hasFkFiles) = true
      · cases ds <;> cases dh <;>
          simp [ensureSchema, ensureTable, goodShape, schemaCurrent, hc, migrateAnalysis]
      · rw [Bool.not_eq_true] at hc
        cases ds <;> cases dh <;>
          simp [ensureSchema, ensureTable, goodShape, schemaCurrent, hc]

/-- Claim C4: running the schema-migration routine twice in a row is
idempotent — after the first run the base tables exist, `datasets.headers`
exists, and the `analysis` table has its 3-column primary key and no foreign
key to `files`, so the second run triggers no migration condition and
returns the state (schema and every table's rows, hence row counts)
completely unchanged. -/
theorem c4_migration_idempotent (s : DBState) :
    ensureSchema (ensureSchema s) = ensureSchema s :=
  ensureSchema_of_goodShape (goodShape_ensureSchema s)

/-! ## Claims C5 and C6 -/

/-- Claim C5: deleting a folder in "keep files" mode (`deleteFolder`) leaves
every member document in the `files` table with `folderId` reset to null
(the enforced `ON DELETE SET NULL` action), and the `analysis` table — hence
every member document's cache rows — completely unchanged. -/
theorem c5_delete_folder_keep_files (s : AppState) (id : String) (f : FileRec)
    (hf : f ∈ s.files) (hfold : f.folderId = some id)
    (hex : s.folders.any (fun g => g.id == id) = true) :
    { f with folderId := none } ∈ (deleteFolder s id).files ∧
    (deleteFolder s id).analysis = s.analysis := by
  refine ⟨?_, rfl⟩
  have hfiles : (deleteFolder s id).files =
      s.files.map (fun g => if g.folderId == some id then { g with folderId := none } else g) := by
    simp [deleteFolder, hex]
  rw [hfiles]
  refine List.mem_map.mpr ⟨f, hf, ?_⟩
  rw [hfold]
  simp

/-- Witness for C5: after `deleteFolder "fo"` on `c5state` the member file is
still there with `folderId = none` and the analysis table is unchanged. -/
theorem c5_delete_folder_keep_files_witness :
    c5file ∈ c5state.files ∧
    ({ c5file with folderId := none } : FileRec) ∈ (deleteFolder c5state "fo").files ∧
    (deleteFolder c5state "fo").analysis = c5state.analysis := by
  refine ⟨by decide, ?_, ?_⟩
  · exact (c5_delete_folder_keep_files c5state "fo" c5file
      (by decide) (by decide) (by decide)).1
  · exact (c5_delete_folder_keep_files c5state "fo" c5file
      (by decide) (by decide) (by decide)).2

/-- Claim C6: `deleteFile` removes the document's row and every analysis row
keyed by the document's id; `deleteDataset` removes the dataset row, all of
its `dataset_rows`, and every analysis row keyed by one of those row ids —
no analysis row for the deleted subject(s) remains. -/
theorem c6_cascade_deletes (s : AppState) (fid did : String) :
    (∀ a ∈ (deleteFile s fid).analysis, a.fileId ≠ fid) ∧
    (∀ f ∈ (deleteFile s fid).files, f.id ≠ fid) ∧
    (∀ d ∈ (deleteDataset s did).datasets, d.id ≠ did) ∧
    (∀ r ∈ (deleteDataset s did).datasetRows, r.datasetId ≠ did) ∧
    (∀ a ∈ (deleteDataset s did).analysis, ∀ r ∈ s.datasetRows,
        r.datasetId = did → a.fileId ≠ r.id) := by
  refine ⟨?_, ?_, ?_, ?_, ?_⟩
  · intro a ha
    have := (List.mem_filter.mp ha).2
    simpa using this
  · intro f hf
    have := (List.mem_filter.mp hf).2
    simpa using this
  · intro d hd
    have := (List.mem_filter.mp hd).2
    simpa using this
  · intro r hr
    have := (List.mem_filter.mp hr).2
    simpa using this
  · intro a ha r hr hrd
    by_cases hempty :
        ((s.datasetRows.filter (fun r => r.datasetId == did)).map (fun r => r.id)).isEmpty = true
    · exfalso
      rw [List.isEmpty_iff, List.map_eq_nil_iff] at hempty
      have hmem : r ∈ s.datasetRows.filter (fun r => r.datasetId == did) :=
        List.mem_filter.mpr ⟨hr, by simp [hrd]⟩
      rw [hempty] at hmem
      exact absurd hmem (List.not_mem_nil r)
    · have hfil : (deleteDataset s did).analysis =
          s.analysis.filter (fun a =>
            !(((s.datasetRows.filter (fun r => r.datasetId == did)).map
                (fun r => r.id)).contains a.fileId)) := by
        simp only [deleteDataset]
        rw [if_neg (by simpa using hempty)]
      rw [hfil] at ha
      have hguard := (List.mem_filter.mp ha).2
      rw [Bool.not_eq_eq_eq_not, Bool.not_true] at hguard
      intro heq
      have hrid : r.id ∈ (s.datasetRows.filter (fun r => r.datasetId == did)).map
          (fun r => r.id) :=
        List.mem_map.mpr ⟨r, List.mem_filter.mpr ⟨hr, by simp [hrd]⟩, rfl⟩
      rw [← heq] at hrid
      rw [List.contains_eq_any_beq] at hguard
      have : ¬∃ x ∈ (s.datasetRows.filter (fun r => r.datasetId == did)).map
          (fun r => r.id), a.fileId == x := by
        rw [← List.any_eq_true]
        simp [hguard]
      exact this ⟨a.fileId, hrid, by simp⟩

/-- Witness for C6: on `c6state`, after `deleteFile "f1"` no analysis row is
keyed by `"f1"`, and after `deleteDataset "d1"` no analysis row is keyed by
a row id of `"d1"`. -/
theorem c6_cascade_deletes_witness :
    (∀ a ∈ (deleteFile c6state "f1").analysis, a.fileId ≠ "f1") ∧
    (∀ a ∈ (deleteDataset c6state "d1").analysis, ∀ r ∈ c6state.datasetRows,
        r.datasetId = "d1" → a.fileId ≠ r.id) := by
  constructor
  · exact (c6_cascade_deletes c6state "f1" "d1").1
  · exact (c6_cascade_deletes c6state "f1" "d1").2.2.2.2

/-! ## Claim C7 -/

lemma escQuotes_eq_nil {l : List Char} (h : escQuotes l = []) : l = [] := by
  cases l with
  | nil => rfl
  | cons c rest =>
      rw [escQuotes] at h
      by_cases hc : (c == '"') = true <;> simp [hc] at h

lemma unescQuotes_escQuotes : ∀ l : List Char, unescQuotes (escQuotes l) = l
  | [] => rfl
  | c :: rest => by
      rw [escQuotes]
      by_cases hc : (c == '"') = true
      · rw [if_pos hc]
        rw [show unescQuotes ('"' :: '"' :: escQuotes rest) =
            if ('"' == '"' && '"' == '"') then '"' :: unescQuotes (escQuotes rest)
            else '"' :: unescQuotes ('"' :: escQuotes rest) from rfl]
        rw [if_pos (by decide)]
        rw [unescQuotes_escQuotes rest]
        rw [show c = '"' from by simpa using hc]
      · rw [if_neg hc]
        cases hE : escQuotes rest with
        | nil =>
            rw [escQuotes_eq_nil hE]
            rfl
        | cons d ds =>
            rw [show unescQuotes (c :: d :: ds) =
                if (c == '"' && d == '"') then '"' :: unescQuotes ds
                else c :: unescQuotes (d :: ds) from rfl]
            rw [if_neg (by simp [Bool.eq_false_iff.mpr hc])]
            rw [← hE, unescQuotes_escQuotes rest]

lemma needsQuoting_head_not_quote {c : Char} {rest : List Char}
    (h : needsQuoting (c :: rest) = false) : (c == '"') = false := by
  rw [needsQuoting, List.any_eq_false] at h
  have h2 := h c (List.mem_cons_self c rest)
  simp only [Bool.or_eq_true, not_or] at h2
  cases hb : (c == '"')
  · rfl
  · exact absurd (eq_of_beq hb) (by simpa using h2.1.1)

/-- Claim C7 as stated is refuted: the export helper `esc` does NOT wrap
every field in double quotes uniformly — a value containing no quote, comma,
or newline is written bare, so `hello` is emitted as `hello`, not
`"hello"`. -/
theorem c7_counterexample :
    esc (some "hello") = "hello" ∧ esc (some "hello") ≠ "\"hello\"" := by
  exact ⟨by decide, by decide⟩

/-- Claim C7 (amended): `esc` wraps a field in double quotes (doubling every
embedded quote) exactly when the value contains a quote, comma, or newline,
and writes it bare otherwise; in either case the emitted token parses back
to the original string under standard CSV rules, and the particular value
`He said "hi", once` is written as `"He said ""hi"", once"`. -/
theorem c7_csv_escaping_roundtrip (s : String) :
    parseCsvField (esc (some s)) = s ∧
    esc (some "He said \"hi\", once") = "\"He said \"\"hi\"\", once\"" := by
  refine ⟨?_, by decide⟩
  rw [esc]
  by_cases hq : needsQuoting s.toList = true
  · rw [if_pos hq]
    show parseCsvField (String.mk ('"' :: (escQuotes s.toList ++ ['"']))) = s
    rw [show parseCsvField (String.mk ('"' :: (escQuotes s.toList ++ ['"']))) =
        if ('"' == '"' && (escQuotes s.toList ++ ['"']).getLast? == some '"') then
          String.mk (unescQuotes (escQuotes s.toList ++ ['"']).dropLast)
        else String.mk ('"' :: (escQuotes s.toList ++ ['"'])) from rfl]
    rw [if_pos (by simp)]
    rw [List.dropLast_concat, unescQuotes_escQuotes]
    rfl
  · rw [if_neg hq]
    have hq2 : needsQuoting s.toList = false := Bool.eq_false_iff.mpr hq
    rw [parseCsvField]
    cases hl : s.toList with
    | nil => rfl
    | cons c rest =>
        have hc := needsQuoting_head_not_quote (hl ▸ hq2)
        show (if (c == '"' && rest.getLast? == some '"') = true then
            String.mk (unescQuotes rest.dropLast) else s) = s
        rw [if_neg (by simp [hc])]

/-! ## Claims C8, C9, C10 -/

/-- Claim C8: on the three-row dataset, `limit 2, offset 0` returns `[A, B]`
with `total = 3` and `limit 2, offset 2` returns `[C]` with `total = 3`;
and in general the returned page of any `getDatasetRows` call is sorted by
`rowIndex` ascending, so repeated pagination over an unmodified dataset is
deterministic (the function is pure). -/
theorem c8_pagination_stability :
    getDatasetRows c8tbl "ds" 2 0 "" = { rows := [c8rowA, c8rowB], total := 3 } ∧
    getDatasetRows c8tbl "ds" 2 2 "" = { rows := [c8rowC], total := 3 } ∧
    ∀ (tbl : List DRow) (did : String) (lim off : Nat) (q : String),
      List.Sorted rowIndexLe (getDatasetRows tbl did lim off q).rows := by
  refine ⟨by decide, by decide, ?_⟩
  intro tbl did lim off q
  rw [getDatasetRows]
  by_cases hp :
      (((sortByRowIndex (matchingRows tbl did q)).drop off).take lim).isEmpty = true
  · rw [if_pos hp]
    exact List.sorted_nil
  · rw [if_neg hp]
    have hsorted : List.Sorted rowIndexLe (sortByRowIndex (matchingRows tbl did q)) :=
      List.sorted_insertionSort rowIndexLe (matchingRows tbl did q)
    have hsub : List.Sublist
        (((sortByRowIndex (matchingRows tbl did q)).drop off).take lim)
        (sortByRowIndex (matchingRows tbl did q)) :=
      List.Sublist.trans (List.take_sublist lim _) (List.drop_sublist off _)
    exact List.Pairwise.sublist hsub hsorted

/-- Claim C9 as stated is refuted: `clear-all-data` does NOT empty the
`datasets` and `dataset_rows` tables — `clearDatabase` deletes only from
`analysis`, `files`, `folders` and `column_configs`, so on `c9state` the
dataset row and its dataset survive the wipe (only their storage files are
removed). -/
theorem c9_counterexample :
    (clearAllData c9state).datasets = c9state.datasets ∧
    (clearAllData c9state).datasetRows = c9state.datasetRows ∧
    c9state.datasets ≠ [] ∧ c9state.datasetRows ≠ [] := by
  exact ⟨rfl, rfl, by decide, by decide⟩

/-- Claim C9 (amended): `clear-all-data` empties the `files`, `folders`,
`analysis` and `column_configs` tables and both managed storage directories,
while leaving the `datasets` and `dataset_rows` tables — as well as
`settings` and `custom_columns` — unchanged. -/
theorem c9_clear_all_data (s : AppState) :
    (clearAllData s).analysis = [] ∧ (clearAllData s).files = [] ∧
    (clearAllData s).folders = [] ∧ (clearAllData s).columnConfigs = [] ∧
    (clearAllData s).pdfStorage = [] ∧ (clearAllData s).datasetStorage = [] ∧
    (clearAllData s).datasets = s.datasets ∧
    (clearAllData s).datasetRows = s.datasetRows ∧
    (clearAllData s).settings = s.settings ∧
    (clearAllData s).customColumns = s.customColumns :=
  ⟨rfl, rfl, rfl, rfl, rfl, rfl, rfl, rfl, rfl, rfl⟩

/-- Claim C10: whenever the requested page is empty because the offset is at
or past the number of rows matching the search, `getDatasetRows` returns
`total = 0` — the true match count is not reported. -/
theorem c10_empty_page_reports_zero_total (tbl : List DRow) (did : String)
    (lim off : Nat) (q : String)
    (h : (matchingRows tbl did q).length ≤ off) :
    getDatasetRows tbl did lim off q = { rows := [], total := 0 } := by
  have hdrop : (sortByRowIndex (matchingRows tbl did q)).drop off = [] :=
    List.drop_eq_nil_of_le
      (by rw [sortByRowIndex, List.length_insertionSort]; exact h)
  rw [getDatasetRows, hdrop]
  simp

/-- Witness for C10: the dataset has 1 matching row, yet the call with
`offset = 5` reports `total = 0`. -/
theorem c10_empty_page_reports_zero_total_witness :
    (matchingRows c10tbl "d" "").length = 1 ∧
    getDatasetRows c10tbl "d" 2 5 "" = { rows := [], total := 0 } := by
  refine ⟨by decide, ?_⟩
  exact c10_empty_page_reports_zero_total c10tbl "d" 2 5 "" (by decide)

end ResearchLens
